import Mathlib

/-!
Shallow embedding of the Wish-A-Day expiry/lifecycle core:
the wish data model and expiry evaluator of `app/models.py`, the
view-accounting, delete and status routes of `app/routes/wishes.py`, and
the reclamation sweep and summary of `app/services/cleanup.py`.

Timestamps are modelled as integers (`Int`); `datetime.utcnow()` becomes an
explicit `now : Int` argument.  The database session becomes an explicit
list of rows (`Db`), with lookup by slug standing for
`db.query(Wish).filter(Wish.slug == slug).first()`, and the background
filesystem/DB failure modes of the sweep are injected through a `SweepEnv`
of per-wish failure flags, so that the `try/except` structure of
`cleanup_expired_wishes` can be translated faithfully.
-/

namespace Wishaday

/-- Expiry reason, as in the expiry service: by time or by views. -/
inductive ExpiryType
  | time
  | views
deriving DecidableEq, Repr

/-- Row of the `wishes` table (`app/models.py`, class `Wish`), restricted to
the fields the lifecycle core reads or writes.  `images` stands for the
wish's `WishImage` rows (their relative paths), owned by the wish and
deleted with it by cascade. -/
structure Wish where
  id : Nat
  slug : String
  title : Option String
  message : String
  theme : String
  expires_at : Option Int
  max_views : Option Int
  current_views : Int
  is_deleted : Bool
  deleted_at : Option Int
  images : List String
deriving DecidableEq, Repr

/-- `Wish.is_expired_by_time` (models.py): false when `expires_at` is unset,
otherwise `utcnow() > expires_at`. -/
def Wish.is_expired_by_time (w : Wish) (now : Int) : Bool :=
  match w.expires_at with
  | none => false
  | some t => decide (t < now)

/-- `Wish.is_expired_by_views` (models.py): false when `max_views` is unset,
otherwise `current_views >= max_views`. -/
def Wish.is_expired_by_views (w : Wish) : Bool :=
  match w.max_views with
  | none => false
  | some m => decide (m ≤ w.current_views)

/-- `Wish.remaining_views` (models.py): `max(0, max_views - current_views)`
when `max_views` is set, else `None`. -/
def Wish.remaining_views (w : Wish) : Option Int :=
  match w.max_views with
  | none => none
  | some m => some (max 0 (m - w.current_views))

/-- `Wish.is_expired` (models.py): expired by time or by views. -/
def Wish.is_expired (w : Wish) (now : Int) : Bool :=
  w.is_expired_by_time now || w.is_expired_by_views

/-- `Wish.soft_delete` (models.py): set `is_deleted = True` and
`deleted_at = utcnow()`. -/
def Wish.soft_delete (w : Wish) (now : Int) : Wish :=
  { w with is_deleted := true, deleted_at := some now }

/-- Result object of the expiry service's `check_expiry`. -/
structure ExpiryResult where
  is_expired : Bool
  expiry_type : Option ExpiryType
deriving DecidableEq, Repr

/-- Modelled from the spec: `check_expiry` lives in `app/services/expiry.py`,
which is imported by the routes but is not among the repository's source
files.  Per spec section 4.1: expired-by-time iff `expires_at` is set and the
current time is strictly after it; expired-by-views iff `max_views` is set
and `current_views >= max_views`; when both hold the reported reason is
`time` (time takes priority in the implementation order). -/
def check_expiry (w : Wish) (now : Int) : ExpiryResult :=
  if w.is_expired_by_time now then ⟨true, some ExpiryType.time⟩
  else if w.is_expired_by_views then ⟨true, some ExpiryType.views⟩
  else ⟨false, none⟩

/-- Modelled from the spec: `should_soft_delete` lives in
`app/services/expiry.py`, which is not among the repository's source files.
Per spec section 4.2 step 4, the post-increment tombstone condition is:
`max_views` is set and `current_views >= max_views`. -/
def should_soft_delete (w : Wish) : Bool :=
  match w.max_views with
  | none => false
  | some m => decide (m ≤ w.current_views)

/-- Database table of wishes: the rows visible to the session. -/
abbrev Db := List Wish

/-- Committing a mutated row: every row matching the slug takes the new
value (slugs are unique in the table, so at most one row is affected). -/
def updateWish (db : Db) (slug : String) (w' : Wish) : Db :=
  db.map fun w => if w.slug == slug then w' else w

/-- Errors of the public view route: 404 for a missing slug, 410 Gone with
the (logged) expiry reason otherwise.  The tombstone branch of `view_wish`
raises 410 without consulting the evaluator, hence a `gone none`. -/
inductive ViewError
  | notFound
  | gone (reason : Option ExpiryType)
deriving DecidableEq, Repr

/-- Errors of the delete and status routes: only 404. -/
inductive NotFoundError
  | notFound
deriving DecidableEq, Repr

/-- Success payload of `view_wish` (schema `WishViewResponse`). -/
structure WishViewResponse where
  title : Option String
  message : String
  theme : String
  images : List String
  remaining_views : Option Int
deriving DecidableEq, Repr

/-- `view_wish` (app/routes/wishes.py, lines 155-207): look the wish up by
slug (404 if absent), 410 if tombstoned, then run `check_expiry`; if expired,
soft-delete and fail 410 with the reason, without touching the counter;
otherwise increment `current_views`, tombstone when `should_soft_delete`
holds post-increment, commit, and answer with the payload.  The
`remaining_views` field reproduces the Python truthiness test
`wish.max_views - wish.current_views if wish.max_views else None` (so a set
but zero `max_views` yields `None`) followed by
`max(0, remaining_views) if remaining_views is not None else None`. -/
def view_wish (db : Db) (slug : String) (now : Int) :
    Except ViewError WishViewResponse × Db :=
  match db.find? (fun w => w.slug == slug) with
  | none => (Except.error ViewError.notFound, db)
  | some w =>
    if w.is_deleted then (Except.error (ViewError.gone none), db)
    else
      let expiry_result := check_expiry w now
      if expiry_result.is_expired then
        (Except.error (ViewError.gone expiry_result.expiry_type),
         updateWish db slug (w.soft_delete now))
      else
        let w1 : Wish := { w with current_views := w.current_views + 1 }
        let w2 : Wish := if should_soft_delete w1 then w1.soft_delete now else w1
        let remaining : Option Int :=
          match w2.max_views with
          | none => none
          | some m => if m == 0 then none else some (m - w2.current_views)
        (Except.ok
          { title := w2.title, message := w2.message, theme := w2.theme,
            images := w2.images,
            remaining_views := remaining.map (fun r => max 0 r) },
         updateWish db slug w2)

/-- `delete_wish` (app/routes/wishes.py, lines 217-234): 404 when the slug
resolves to no row or to an already tombstoned row, otherwise soft-delete
and commit. -/
def delete_wish (db : Db) (slug : String) (now : Int) :
    Except NotFoundError Unit × Db :=
  match db.find? (fun w => w.slug == slug) with
  | none => (Except.error NotFoundError.notFound, db)
  | some w =>
    if w.is_deleted then (Except.error NotFoundError.notFound, db)
    else (Except.ok (), updateWish db slug (w.soft_delete now))

/-- Response of the status route, covering both of its dictionary shapes:
the deleted branch fills `deleted_at` and `message`, the live branch fills
`status`, `expiry_type`, `remaining_views` and `expires_at`. -/
structure WishStatusResponse where
  wish_exists : Bool
  status : String
  deleted_at : Option Int := none
  message : Option String := none
  expiry_type : Option ExpiryType := none
  remaining_views : Option Int := none
  expires_at : Option Int := none
deriving DecidableEq, Repr

/-- `get_wish_status` (app/routes/wishes.py, lines 238-265): 404 only when
no row carries the slug; a tombstoned row answers with
`exists/status deleted/deleted_at`; a live row answers with the evaluator's
verdict and the model's `remaining_views` property.  No commit is issued:
the session is returned unchanged. -/
def get_wish_status (db : Db) (slug : String) (now : Int) :
    Except NotFoundError WishStatusResponse × Db :=
  match db.find? (fun w => w.slug == slug) with
  | none => (Except.error NotFoundError.notFound, db)
  | some w =>
    if w.is_deleted then
      (Except.ok
        { wish_exists := true, status := "deleted",
          deleted_at := w.deleted_at,
          message := some "Wish has expired or been deleted" }, db)
    else
      let expiry_result := check_expiry w now
      (Except.ok
        { wish_exists := true,
          status := if expiry_result.is_expired then "expired" else "active",
          expiry_type :=
            if expiry_result.is_expired then expiry_result.expiry_type else none,
          remaining_views := w.remaining_views,
          expires_at := w.expires_at }, db)

/-- Failure injection for the sweep's interactions with the filesystem and
the session, per wish id: whether the wish's upload directory exists,
whether `shutil.rmtree` on it raises, and whether `db.delete` on the row
raises. -/
structure SweepEnv where
  pathExists : Nat → Bool
  rmtree_fails : Nat → Bool
  row_delete_fails : Nat → Bool

/-- Counter triple returned by `cleanup_expired_wishes`:
`(wishes_deleted, images_deleted, errors_count)`. -/
structure SweepCounters where
  wishes_deleted : Nat
  images_deleted : Nat
  errors_count : Nat
deriving DecidableEq, Repr

/-- Selection predicate of the sweep's query (cleanup.py, lines 34-40):
`is_deleted == True`, `deleted_at != None`, `deleted_at < cutoff_time`. -/
def is_purge_candidate (w : Wish) (cutoff : Int) : Bool :=
  w.is_deleted &&
    (match w.deleted_at with
     | none => false
     | some d => decide (d < cutoff))

/-- One iteration of the sweep's per-wish loop (cleanup.py, lines 47-67).
A failing `rmtree` is caught by the inner `except`, adds one error, and the
flow continues to `db.delete`; a failing `db.delete` is caught by the outer
`except`, adds one error, and the counters for that wish are not bumped;
otherwise the row is deleted and the wish/image counters grow. -/
def sweep_step (env : SweepEnv) (c : SweepCounters) (w : Wish) : SweepCounters :=
  let file_errors : Nat :=
    if env.pathExists w.id && env.rmtree_fails w.id then 1 else 0
  if env.row_delete_fails w.id then
    { c with errors_count := c.errors_count + file_errors + 1 }
  else
    { wishes_deleted := c.wishes_deleted + 1,
      images_deleted := c.images_deleted + w.images.length,
      errors_count := c.errors_count + file_errors }

/-- `cleanup_expired_wishes` (app/services/cleanup.py, lines 18-70): select
the purge candidates with `deleted_at < now - grace_period`, run the
fault-tolerant per-wish loop, commit, and return the counters together with
the table the commit leaves behind: every candidate whose `db.delete`
succeeded is gone, every other row is untouched. -/
def cleanup_expired_wishes (env : SweepEnv) (db : Db) (now grace : Int) :
    SweepCounters × Db :=
  let cutoff := now - grace
  let wishes_to_delete := db.filter (fun w => is_purge_candidate w cutoff)
  let counters := wishes_to_delete.foldl (sweep_step env) ⟨0, 0, 0⟩
  (counters,
   db.filter (fun w => !(is_purge_candidate w cutoff && !env.row_delete_fails w.id)))

/-- Summary dictionary of `get_cleanup_summary`. -/
structure CleanupSummary where
  expired_wishes_ready_for_deletion : Nat
  wishes_in_grace_period : Nat
  total_wishes : Nat
  total_images : Nat
  grace_period_minutes : Int
  cleanup_interval_minutes : Int
  error : Option String := none
deriving DecidableEq, Repr

/-- Grace-period predicate of the summary's second query (cleanup.py, lines
155-161): tombstoned, `deleted_at` set, `deleted_at >= cutoff_time`. -/
def in_grace_period (w : Wish) (cutoff : Int) : Bool :=
  w.is_deleted &&
    (match w.deleted_at with
     | none => false
     | some d => decide (cutoff ≤ d))

/-- Count of all `WishImage` rows. -/
def countImages (db : Db) : Nat :=
  (db.map (fun w => w.images.length)).sum

/-- `get_cleanup_summary` (app/services/cleanup.py, lines 131-187).  The
body's queries run inside a `try`; `store_fails` injects a backing-store
exception into them, and the `except` branch then returns the zeroed
default dictionary carrying the error message — the failure is caught, not
re-raised. -/
def get_cleanup_summary (store_fails : Bool) (db : Db)
    (now grace interval : Int) (err_msg : String) : CleanupSummary :=
  let cutoff := now - grace
  if store_fails then
    { expired_wishes_ready_for_deletion := 0, wishes_in_grace_period := 0,
      total_wishes := 0, total_images := 0,
      grace_period_minutes := grace, cleanup_interval_minutes := interval,
      error := some err_msg }
  else
    { expired_wishes_ready_for_deletion :=
        (db.filter (fun w => is_purge_candidate w cutoff)).length,
      wishes_in_grace_period :=
        (db.filter (fun w => in_grace_period w cutoff)).length,
      total_wishes := db.length,
      total_images := countImages db,
      grace_period_minutes := grace,
      cleanup_interval_minutes := interval }

/-- Backing-store connectivity failure (`StoreUnavailable`). -/
inductive StoreError
  | unavailable
deriving DecidableEq, Repr

/-- `view_wish` under a fallible store: the route wraps none of its session
calls in `try/except`, so a store failure propagates to the caller before
any mutation. -/
def view_wish_store (store_fails : Bool) (db : Db) (slug : String) (now : Int) :
    Except StoreError (Except ViewError WishViewResponse × Db) :=
  if store_fails then Except.error StoreError.unavailable
  else Except.ok (view_wish db slug now)

/-- `delete_wish` under a fallible store: no `try/except`, failure
propagates. -/
def delete_wish_store (store_fails : Bool) (db : Db) (slug : String) (now : Int) :
    Except StoreError (Except NotFoundError Unit × Db) :=
  if store_fails then Except.error StoreError.unavailable
  else Except.ok (delete_wish db slug now)

/-- `get_wish_status` under a fallible store: no `try/except`, failure
propagates. -/
def get_wish_status_store (store_fails : Bool) (db : Db) (slug : String) (now : Int) :
    Except StoreError (Except NotFoundError WishStatusResponse × Db) :=
  if store_fails then Except.error StoreError.unavailable
  else Except.ok (get_wish_status db slug now)

/-- `cleanup_expired_wishes` under a fallible store: its candidate query and
final commit are outside any `try`, so a store failure propagates. -/
def cleanup_expired_wishes_store (store_fails : Bool) (env : SweepEnv) (db : Db)
    (now grace : Int) : Except StoreError (SweepCounters × Db) :=
  if store_fails then Except.error StoreError.unavailable
  else Except.ok (cleanup_expired_wishes env db now grace)

/-- `get_cleanup_summary` as its caller sees it: the function catches the
store failure itself and always returns a summary, never an exception. -/
def get_cleanup_summary_store (store_fails : Bool) (db : Db)
    (now grace interval : Int) (err_msg : String) :
    Except StoreError CleanupSummary :=
  Except.ok (get_cleanup_summary store_fails db now grace interval err_msg)

/-- Sequence of view calls on one slug, each at its own instant, threading
the table through; returns the per-call outcomes and the final table. -/
def run_views (db : Db) (slug : String) :
    List Int → List (Except ViewError WishViewResponse) × Db
  | [] => ([], db)
  | now :: rest =>
    let step := view_wish db slug now
    let tail := run_views step.2 slug rest
    (step.1 :: tail.1, tail.2)

/-- One core operation, for invariant statements over operation sequences. -/
inductive Op
  | view (slug : String) (now : Int)
  | del (slug : String) (now : Int)
  | status (slug : String) (now : Int)
  | sweep (env : SweepEnv) (now grace : Int)

/-- Table after one core operation. -/
def apply_op (db : Db) : Op → Db
  | Op.view slug now => (view_wish db slug now).2
  | Op.del slug now => (delete_wish db slug now).2
  | Op.status slug now => (get_wish_status db slug now).2
  | Op.sweep env now grace => (cleanup_expired_wishes env db now grace).2

/-- Table after a sequence of core operations. -/
def apply_ops (db : Db) (ops : List Op) : Db :=
  ops.foldl apply_op db

/-! ### Helper lemmas -/

theorem check_expiry_is_expired (w : Wish) (now : Int) :
    (check_expiry w now).is_expired = w.is_expired now := by
  unfold check_expiry Wish.is_expired
  by_cases h1 : w.is_expired_by_time now <;>
    by_cases h2 : w.is_expired_by_views <;> simp [h1, h2]

theorem soft_delete_expires_at (w : Wish) (now : Int) :
    (w.soft_delete now).expires_at = w.expires_at := rfl

theorem soft_delete_current_views (w : Wish) (now : Int) :
    (w.soft_delete now).current_views = w.current_views := rfl

theorem soft_delete_max_views (w : Wish) (now : Int) :
    (w.soft_delete now).max_views = w.max_views := rfl

instance {ε α : Type} [DecidableEq ε] [DecidableEq α] :
    DecidableEq (Except ε α) := fun x y =>
  match x, y with
  | Except.ok a, Except.ok b =>
    if h : a = b then isTrue (by rw [h])
    else isFalse (by intro he; cases he; exact h rfl)
  | Except.error a, Except.error b =>
    if h : a = b then isTrue (by rw [h])
    else isFalse (by intro he; cases he; exact h rfl)
  | Except.ok _, Except.error _ => isFalse (by intro he; cases he)
  | Except.error _, Except.ok _ => isFalse (by intro he; cases he)

theorem find_updateWish (db : Db) (slug : String) (w w' : Wish)
    (h : db.find? (fun x => x.slug == slug) = some w)
    (h' : (w'.slug == slug) = true) :
    (updateWish db slug w').find? (fun x => x.slug == slug) = some w' := by
  induction db with
  | nil => simp [List.find?] at h
  | cons a as ih =>
    have hcons : updateWish (a :: as) slug w' =
        (if (a.slug == slug) = true then w' else a) :: updateWish as slug w' := rfl
    cases hb : (a.slug == slug) with
    | true =>
      rw [hcons, if_pos hb]
      exact List.find?_cons_of_pos (p := fun x => x.slug == slug)
        (updateWish as slug w') h'
    | false =>
      have hpa : ¬ ((a.slug == slug) = true) := by simp [hb]
      rw [List.find?_cons_of_neg (p := fun x => x.slug == slug) as hpa] at h
      rw [hcons, if_neg hpa,
        List.find?_cons_of_neg (p := fun x => x.slug == slug)
          (updateWish as slug w') hpa]
      exact ih h

/-! ### Claim theorems -/

/-- C5: the expiry evaluation of `Wish.is_expired` (models.py) is a pure
function of `expires_at`, `max_views`, `current_views` and the current
time: expired-by-time iff `expires_at` is set and the current time is
strictly after it; expired-by-views iff `max_views` is set and
`current_views >= max_views`; overall expired iff either holds. -/
theorem C5_expiry_evaluator_pure (w : Wish) (now : Int) :
    (w.is_expired_by_time now = true ↔ ∃ t, w.expires_at = some t ∧ t < now) ∧
    (w.is_expired_by_views = true ↔
      ∃ m, w.max_views = some m ∧ m ≤ w.current_views) ∧
    (w.is_expired now = true ↔
      (w.is_expired_by_time now = true ∨ w.is_expired_by_views = true)) := by
  refine ⟨?_, ?_, ?_⟩
  · cases h : w.expires_at <;> simp [Wish.is_expired_by_time, h]
  · cases h : w.max_views <;> simp [Wish.is_expired_by_views, h]
  · simp [Wish.is_expired]

/-- C2: a live wish whose `expires_at` lies strictly in the past fails
`view` with Gone reason `time`; the committed row is the soft-deleted wish,
which keeps `current_views` untouched and carries `is_deleted = true`,
`deleted_at = now`. -/
theorem C2_view_expired_by_time (db : Db) (slug : String) (now : Int)
    (w : Wish) (t : Int)
    (hfind : db.find? (fun x => x.slug == slug) = some w)
    (hdel : w.is_deleted = false)
    (hexp : w.expires_at = some t) (ht : t < now) :
    (view_wish db slug now).1 =
      Except.error (ViewError.gone (some ExpiryType.time)) ∧
    (view_wish db slug now).2 = updateWish db slug (w.soft_delete now) ∧
    (w.soft_delete now).current_views = w.current_views ∧
    (w.soft_delete now).is_deleted = true ∧
    (w.soft_delete now).deleted_at = some now := by
  have htime : w.is_expired_by_time now = true := by
    simp [Wish.is_expired_by_time, hexp, ht]
  refine ⟨?_, ?_, rfl, rfl, rfl⟩ <;>
    simp [view_wish, hfind, hdel, check_expiry, htime]

/-- Witness for C2 at a concrete expired wish. -/
def expiredWish : Wish :=
  { id := 4, slug := "exp00001", title := none, message := "m",
    theme := "default", expires_at := some 5, max_views := none,
    current_views := 0, is_deleted := false, deleted_at := none,
    images := [] }

theorem C2_view_expired_by_time_witness :
    (view_wish [expiredWish] "exp00001" 9).1 =
      Except.error (ViewError.gone (some ExpiryType.time)) :=
  (C2_view_expired_by_time [expiredWish] "exp00001" 9 expiredWish 5
    (by decide) rfl rfl (by decide)).1

/-- C3 as stated is false on the code: `view_wish` on a tombstoned wish
raises 410 (Gone), not 404 (NotFound); this exhibits a tombstoned row whose
view outcome is Gone and differs from NotFound. -/
def tombstonedWish : Wish :=
  { id := 1, slug := "abc12345", title := none, message := "hi",
    theme := "default", expires_at := none, max_views := some 1,
    current_views := 1, is_deleted := true, deleted_at := some 5,
    images := [] }

theorem C3_counterexample :
    tombstonedWish.is_deleted = true ∧
    (view_wish [tombstonedWish] "abc12345" 10).1 =
      Except.error (ViewError.gone none) ∧
    (view_wish [tombstonedWish] "abc12345" 10).1 ≠
      Except.error ViewError.notFound := by
  refine ⟨rfl, by decide, by decide⟩

/-- C3 amended: on a tombstoned wish, `view` fails with Gone (410) while
`delete` fails with NotFound (404); neither call mutates the table.  A slug
that resolves to no row gives NotFound for both, so a tombstoned wish is
indistinguishable from an absent one through `delete` but distinguishable
through `view`. -/
theorem C3_amended_tombstoned (db : Db) (slug : String) (now : Int) (w : Wish)
    (hfind : db.find? (fun x => x.slug == slug) = some w)
    (hdel : w.is_deleted = true) :
    (view_wish db slug now).1 = Except.error (ViewError.gone none) ∧
    (view_wish db slug now).2 = db ∧
    (delete_wish db slug now).1 = Except.error NotFoundError.notFound ∧
    (delete_wish db slug now).2 = db ∧
    (∀ db2 : Db, db2.find? (fun x => x.slug == slug) = none →
      (delete_wish db2 slug now).1 = Except.error NotFoundError.notFound ∧
      (view_wish db2 slug now).1 = Except.error ViewError.notFound) := by
  refine ⟨?_, ?_, ?_, ?_, ?_⟩
  · simp [view_wish, hfind, hdel]
  · simp [view_wish, hfind, hdel]
  · simp [delete_wish, hfind, hdel]
  · simp [delete_wish, hfind, hdel]
  · intro db2 h2
    exact ⟨by simp [delete_wish, h2], by simp [view_wish, h2]⟩

theorem C3_amended_tombstoned_witness :
    (view_wish [tombstonedWish] "abc12345" 10).1 =
      Except.error (ViewError.gone none) :=
  (C3_amended_tombstoned [tombstonedWish] "abc12345" 10 tombstonedWish
    (by decide) rfl).1

/-- C9 as stated is false on the code: `get_cleanup_summary` wraps its
queries in `try/except` and, on a backing-store failure, returns the zeroed
default summary instead of propagating the failure to its caller. -/
theorem C9_counterexample :
    get_cleanup_summary_store true [] 0 0 0 "store down" =
      Except.ok
        { expired_wishes_ready_for_deletion := 0, wishes_in_grace_period := 0,
          total_wishes := 0, total_images := 0, grace_period_minutes := 0,
          cleanup_interval_minutes := 0, error := some "store down" } ∧
    get_cleanup_summary_store true [] 0 0 0 "store down" ≠
      Except.error StoreError.unavailable := by
  exact ⟨rfl, by decide⟩

/-- C9 amended: a backing-store failure makes `view`, `delete`, `status`
and `run_sweep` fail outright with `StoreUnavailable`, with no mutation
performed; `summary` alone catches the failure and answers with the zeroed
default report carrying the error message instead of propagating it. -/
theorem C9_amended_store_failure (db : Db) (slug : String) (env : SweepEnv)
    (now grace interval : Int) (err_msg : String) :
    view_wish_store true db slug now = Except.error StoreError.unavailable ∧
    delete_wish_store true db slug now = Except.error StoreError.unavailable ∧
    get_wish_status_store true db slug now =
      Except.error StoreError.unavailable ∧
    cleanup_expired_wishes_store true env db now grace =
      Except.error StoreError.unavailable ∧
    get_cleanup_summary_store true db now grace interval err_msg =
      Except.ok
        { expired_wishes_ready_for_deletion := 0, wishes_in_grace_period := 0,
          total_wishes := 0, total_images := 0, grace_period_minutes := grace,
          cleanup_interval_minutes := interval, error := some err_msg } :=
  ⟨rfl, rfl, rfl, rfl, rfl⟩

/-- C10: `status` never mutates the table, answers NotFound exactly when the
slug resolves to no row, and on a tombstoned row succeeds with
`exists = true`, status `deleted` and the stored `deleted_at`. -/
theorem C10_status_route (db : Db) (slug : String) (now : Int) :
    (get_wish_status db slug now).2 = db ∧
    ((get_wish_status db slug now).1 = Except.error NotFoundError.notFound ↔
      db.find? (fun x => x.slug == slug) = none) ∧
    (∀ w, db.find? (fun x => x.slug == slug) = some w → w.is_deleted = true →
      (get_wish_status db slug now).1 = Except.ok
        { wish_exists := true, status := "deleted", deleted_at := w.deleted_at,
          message := some "Wish has expired or been deleted" }) := by
  cases hf : db.find? (fun x => x.slug == slug) with
  | none =>
    refine ⟨by simp [get_wish_status, hf], by simp [get_wish_status, hf], ?_⟩
    intro w hw
    simp at hw
  | some w =>
    refine ⟨?_, ?_, ?_⟩
    · by_cases hd : w.is_deleted <;> simp [get_wish_status, hf, hd]
    · constructor
      · intro h
        by_cases hd : w.is_deleted <;> simp [get_wish_status, hf, hd] at h
      · intro h
        simp at h
    · intro w' hw' hdel'
      injection hw' with e
      subst e
      simp [get_wish_status, hf, hdel']

/-! ### Sweep lemmas -/

/-- Error contribution of one purge candidate under the injected failures:
one for a caught `rmtree` failure on an existing directory, one for a caught
`db.delete` failure. -/
def sweep_error_weight (env : SweepEnv) (w : Wish) : Nat :=
  (if env.pathExists w.id && env.rmtree_fails w.id then 1 else 0) +
  (if env.row_delete_fails w.id then 1 else 0)

theorem sweep_step_errors (env : SweepEnv) (c : SweepCounters) (w : Wish) :
    (sweep_step env c w).errors_count =
      c.errors_count + sweep_error_weight env w := by
  cases hr : env.row_delete_fails w.id <;>
    cases hf : (env.pathExists w.id && env.rmtree_fails w.id) <;>
      simp [sweep_step, sweep_error_weight, hr, hf]

theorem sweep_step_wishes (env : SweepEnv) (c : SweepCounters) (w : Wish) :
    (sweep_step env c w).wishes_deleted =
      c.wishes_deleted + (if env.row_delete_fails w.id then 0 else 1) := by
  cases hr : env.row_delete_fails w.id <;> simp [sweep_step, hr]

theorem sweep_foldl_errors (env : SweepEnv) (l : List Wish) (c : SweepCounters) :
    (l.foldl (sweep_step env) c).errors_count =
      c.errors_count + (l.map (sweep_error_weight env)).sum := by
  induction l generalizing c with
  | nil => simp
  | cons a as ih =>
    rw [List.foldl_cons, ih, sweep_step_errors]
    simp
    omega

theorem sweep_foldl_wishes (env : SweepEnv) (l : List Wish) (c : SweepCounters) :
    (l.foldl (sweep_step env) c).wishes_deleted =
      c.wishes_deleted +
        (l.filter (fun x => !env.row_delete_fails x.id)).length := by
  induction l generalizing c with
  | nil => simp
  | cons a as ih =>
    rw [List.foldl_cons, ih, sweep_step_wishes]
    cases hr : env.row_delete_fails a.id <;>
      simp [List.filter_cons, hr] <;> omega

/-- C7 as stated is false on the code: the sweep's query keeps a wish whose
`deleted_at` equals the cutoff (`now - grace`) exactly, because it selects
`deleted_at < cutoff` strictly, while the claim requires every wish with
`deleted_at <= now - grace` to be purged. -/
def boundaryWish : Wish :=
  { id := 2, slug := "bound123", title := none, message := "m",
    theme := "default", expires_at := none, max_views := none,
    current_views := 0, is_deleted := true, deleted_at := some 7,
    images := [] }

/-- Sweep environment in which nothing fails. -/
def noFailEnv : SweepEnv :=
  { pathExists := fun _ => false, rmtree_fails := fun _ => false,
    row_delete_fails := fun _ => false }

theorem C7_counterexample :
    boundaryWish.is_deleted = true ∧
    boundaryWish.deleted_at = some ((10 : Int) - 3) ∧
    (cleanup_expired_wishes noFailEnv [boundaryWish] 10 3).2 = [boundaryWish] ∧
    (cleanup_expired_wishes noFailEnv [boundaryWish] 10 3).1.wishes_deleted
      = 0 := by
  refine ⟨rfl, by decide, by decide, by decide⟩

/-- C7 amended: with no per-row deletion failures, the sweep permanently
removes exactly the wishes with `is_deleted = true` and `deleted_at`
STRICTLY BEFORE `now - grace_period`; every other row — tombstoned at or
after the cutoff, or not tombstoned — survives the sweep unchanged, and no
row is invented. -/
theorem C7_amended_sweep_strict_cutoff (env : SweepEnv) (db : Db)
    (now grace : Int)
    (hrow : ∀ i, env.row_delete_fails i = false) :
    (∀ w, w ∈ db → is_purge_candidate w (now - grace) = true →
      w ∉ (cleanup_expired_wishes env db now grace).2) ∧
    (∀ w, w ∈ db → is_purge_candidate w (now - grace) = false →
      w ∈ (cleanup_expired_wishes env db now grace).2) ∧
    (∀ w, w ∈ (cleanup_expired_wishes env db now grace).2 →
      w ∈ db ∧ is_purge_candidate w (now - grace) = false) := by
  have hres : (cleanup_expired_wishes env db now grace).2 =
      db.filter (fun x => !(is_purge_candidate x (now - grace))) := by
    show db.filter _ = db.filter _
    congr 1
    funext x
    rw [hrow x.id]
    cases is_purge_candidate x (now - grace) <;> rfl
  refine ⟨?_, ?_, ?_⟩
  · intro w hw hc hmem
    rw [hres, List.mem_filter, hc] at hmem
    simp at hmem
  · intro w hw hc
    rw [hres, List.mem_filter, hc]
    exact ⟨hw, rfl⟩
  · intro w hmem
    rw [hres, List.mem_filter] at hmem
    exact ⟨hmem.1, by simpa using hmem.2⟩

theorem C7_amended_sweep_strict_cutoff_witness :
    boundaryWish ∈ (cleanup_expired_wishes noFailEnv [boundaryWish] 10 3).2 :=
  (C7_amended_sweep_strict_cutoff noFailEnv [boundaryWish] 10 3
    (fun _ => rfl)).2.1 boundaryWish (by decide) (by decide)

/-- Purge candidate and failing-filesystem environment for the C8 witness:
the wish's directory exists, `rmtree` on it raises, row deletion works. -/
def purgeCandWish : Wish :=
  { id := 9, slug := "purge001", title := none, message := "m",
    theme := "default", expires_at := none, max_views := none,
    current_views := 0, is_deleted := true, deleted_at := some 0,
    images := ["9/a.webp"] }

def fileFailEnv : SweepEnv :=
  { pathExists := fun _ => true, rmtree_fails := fun _ => true,
    row_delete_fails := fun _ => false }

/-- C8: the sweep is per-item fault-tolerant.  Its error counter is the sum
of the caught per-candidate failures over ALL purge candidates (no failure
aborts the batch), its deletion counter counts every candidate whose row
deletion succeeded regardless of file-deletion failures, and a candidate
whose row deletion succeeds is removed from the table even when its file
deletion failed.  The translated sweep is a total function: it always
returns its `(wishes_deleted, images_deleted, errors)` counters. -/
theorem C8_sweep_fault_tolerant (env : SweepEnv) (db : Db) (now grace : Int)
    (w : Wish) (hw : w ∈ db)
    (hcand : is_purge_candidate w (now - grace) = true)
    (hrow : env.row_delete_fails w.id = false) :
    (cleanup_expired_wishes env db now grace).1.errors_count =
      ((db.filter (fun x => is_purge_candidate x (now - grace))).map
        (sweep_error_weight env)).sum ∧
    (cleanup_expired_wishes env db now grace).1.wishes_deleted =
      ((db.filter (fun x => is_purge_candidate x (now - grace))).filter
        (fun x => !env.row_delete_fails x.id)).length ∧
    w ∉ (cleanup_expired_wishes env db now grace).2 := by
  have h1 : (cleanup_expired_wishes env db now grace).1 =
      (db.filter (fun x => is_purge_candidate x (now - grace))).foldl
        (sweep_step env) ⟨0, 0, 0⟩ := rfl
  have h2 : (cleanup_expired_wishes env db now grace).2 =
      db.filter (fun x =>
        !(is_purge_candidate x (now - grace) && !env.row_delete_fails x.id)) :=
    rfl
  refine ⟨?_, ?_, ?_⟩
  · rw [h1, sweep_foldl_errors]
    simp
  · rw [h1, sweep_foldl_wishes]
    simp
  · intro hmem
    rw [h2, List.mem_filter, hcand, hrow] at hmem
    simp at hmem

theorem C8_sweep_fault_tolerant_witness :
    purgeCandWish ∉ (cleanup_expired_wishes fileFailEnv [purgeCandWish] 10 3).2 :=
  (C8_sweep_fault_tolerant fileFailEnv [purgeCandWish] 10 3 purgeCandWish
    (by decide) (by decide) rfl).2.2

/-- C6: a successful `view` reports `remaining_views` equal to
`max(0, max_views - current_views)` computed AFTER this call's increment
when `max_views` is set, and no value when `max_views` is unset.  The
hypothesis `0 ≤ current_views` records that stored counters are
non-negative (they start at 0 and only grow). -/
theorem C6_remaining_views (db : Db) (slug : String) (now : Int) (w : Wish)
    (resp : WishViewResponse)
    (hfind : db.find? (fun x => x.slug == slug) = some w)
    (hnn : 0 ≤ w.current_views)
    (hok : (view_wish db slug now).1 = Except.ok resp) :
    (w.max_views = none → resp.remaining_views = none) ∧
    (∀ m, w.max_views = some m →
      resp.remaining_views = some (max 0 (m - (w.current_views + 1)))) := by
  by_cases hd : w.is_deleted
  · simp [view_wish, hfind, hd] at hok
  · by_cases he : (check_expiry w now).is_expired = true
    · simp [view_wish, hfind, hd, he] at hok
    · rw [Bool.not_eq_true] at he
      have hexp : w.is_expired now = false := by
        rw [← check_expiry_is_expired w now, he]
      have hev : w.is_expired_by_views = false :=
        (Bool.or_eq_false_iff.mp hexp).2
      rcases hmax : w.max_views with _ | m
      · constructor
        · intro _
          simp [view_wish, hfind, hd, he, should_soft_delete, hmax] at hok
          rw [← hok]
        · intro m hm
          simp at hm
      · have hlt : w.current_views < m := by
          simp [Wish.is_expired_by_views, hmax] at hev
          omega
        have hm0 : m ≠ 0 := by omega
        constructor
        · intro hnone
          simp at hnone
        · intro m' hm'
          injection hm' with e
          subst e
          by_cases hle : m ≤ w.current_views + 1
          · simp [view_wish, hfind, hd, he, should_soft_delete, hmax, hm0,
              hle, Wish.soft_delete] at hok
            rw [← hok]
            have hz : m - (w.current_views + 1) ≤ 0 := by omega
            simp [max_eq_left hz]
          · simp [view_wish, hfind, hd, he, should_soft_delete, hmax, hm0,
              hle] at hok
            rw [← hok]

/-- Fresh wish with a view budget of 2, for the C6 witness. -/
def budgetWish : Wish :=
  { id := 6, slug := "budget01", title := none, message := "m",
    theme := "default", expires_at := none, max_views := some 2,
    current_views := 0, is_deleted := false, deleted_at := none,
    images := [] }

theorem C6_remaining_views_witness :
    ({ title := none, message := "m", theme := "default", images := [],
       remaining_views := some 1 } : WishViewResponse).remaining_views =
      some (max 0 ((2 : Int) - (0 + 1))) :=
  (C6_remaining_views [budgetWish] "budget01" 0 budgetWish
    { title := none, message := "m", theme := "default", images := [],
      remaining_views := some 1 }
    (by decide) (by decide) (by decide)).2 2 rfl

/-! ### View-limit invariant -/

/-- Counter invariant for one row: `current_views` does not exceed a set
`max_views`. -/
def views_within_limit (w : Wish) : Prop :=
  ∀ m, w.max_views = some m → w.current_views ≤ m

/-- Counter invariant for the whole table. -/
def db_views_ok (db : Db) : Prop :=
  ∀ w ∈ db, views_within_limit w

theorem mem_updateWish (db : Db) (slug : String) (w' x : Wish)
    (hx : x ∈ updateWish db slug w') : x ∈ db ∨ x = w' := by
  unfold updateWish at hx
  rcases List.mem_map.mp hx with ⟨a, ha, hfa⟩
  by_cases hs : (a.slug == slug) = true
  · right
    rw [← hfa, if_pos hs]
  · left
    rw [← hfa, if_neg hs]
    exact ha

theorem views_within_limit_soft_delete (w : Wish) (now : Int)
    (h : views_within_limit w) : views_within_limit (w.soft_delete now) := h

/-- Row committed by the success path of `view_wish`: the incremented wish,
tombstoned when the incremented counter reaches the limit. -/
def next_row (w : Wish) (now : Int) : Wish :=
  let w1 : Wish := { w with current_views := w.current_views + 1 }
  if should_soft_delete w1 then w1.soft_delete now else w1

theorem next_row_max_views (w : Wish) (now : Int) :
    (next_row w now).max_views = w.max_views := by
  unfold next_row
  by_cases h : should_soft_delete
      { w with current_views := w.current_views + 1 } = true <;>
    simp [h, Wish.soft_delete]

theorem next_row_current_views (w : Wish) (now : Int) :
    (next_row w now).current_views = w.current_views + 1 := by
  unfold next_row
  by_cases h : should_soft_delete
      { w with current_views := w.current_views + 1 } = true <;>
    simp [h, Wish.soft_delete]

theorem next_row_expires_at (w : Wish) (now : Int) :
    (next_row w now).expires_at = w.expires_at := by
  unfold next_row
  by_cases h : should_soft_delete
      { w with current_views := w.current_views + 1 } = true <;>
    simp [h, Wish.soft_delete]

theorem next_row_slug (w : Wish) (now : Int) :
    (next_row w now).slug = w.slug := by
  unfold next_row
  by_cases h : should_soft_delete
      { w with current_views := w.current_views + 1 } = true <;>
    simp [h, Wish.soft_delete]

theorem next_row_is_deleted (w : Wish) (now : Int) :
    (next_row w now).is_deleted =
      (should_soft_delete { w with current_views := w.current_views + 1 } ||
        w.is_deleted) := by
  unfold next_row
  by_cases h : should_soft_delete
      { w with current_views := w.current_views + 1 } = true <;>
    simp [h, Wish.soft_delete]

theorem view_wish_none_db (db : Db) (slug : String) (now : Int)
    (hf : db.find? (fun x => x.slug == slug) = none) :
    (view_wish db slug now).2 = db := by
  simp [view_wish, hf]

theorem view_wish_deleted_db (db : Db) (slug : String) (now : Int) (w : Wish)
    (hf : db.find? (fun x => x.slug == slug) = some w)
    (hd : w.is_deleted = true) :
    (view_wish db slug now).2 = db := by
  simp [view_wish, hf, hd]

theorem view_wish_expired_db (db : Db) (slug : String) (now : Int) (w : Wish)
    (hf : db.find? (fun x => x.slug == slug) = some w)
    (hd : w.is_deleted = false) (he : w.is_expired now = true) :
    (view_wish db slug now).2 = updateWish db slug (w.soft_delete now) := by
  have he' : (check_expiry w now).is_expired = true := by
    rw [check_expiry_is_expired]
    exact he
  simp [view_wish, hf, hd, he']

theorem view_wish_live_db (db : Db) (slug : String) (now : Int) (w : Wish)
    (hf : db.find? (fun x => x.slug == slug) = some w)
    (hd : w.is_deleted = false) (he : w.is_expired now = false) :
    (view_wish db slug now).2 = updateWish db slug (next_row w now) := by
  have he' : (check_expiry w now).is_expired = false := by
    rw [check_expiry_is_expired]
    exact he
  simp [view_wish, next_row, hf, hd, he']

theorem get_wish_status_db (db : Db) (slug : String) (now : Int) :
    (get_wish_status db slug now).2 = db := by
  cases hf : db.find? (fun x => x.slug == slug) with
  | none => simp [get_wish_status, hf]
  | some w => by_cases hd : w.is_deleted = true <;> simp [get_wish_status, hf, hd]

theorem apply_op_views_ok (db : Db) (op : Op) (h : db_views_ok db) :
    db_views_ok (apply_op db op) := by
  cases op with
  | view slug now =>
    show db_views_ok (view_wish db slug now).2
    cases hf : db.find? (fun x => x.slug == slug) with
    | none =>
      rw [view_wish_none_db db slug now hf]
      exact h
    | some w =>
      have hw : w ∈ db := List.mem_of_find?_eq_some hf
      by_cases hd : w.is_deleted = true
      · rw [view_wish_deleted_db db slug now w hf hd]
        exact h
      · rw [Bool.not_eq_true] at hd
        by_cases he : w.is_expired now = true
        · rw [view_wish_expired_db db slug now w hf hd he]
          intro x hx
          rcases mem_updateWish db slug _ x hx with hxdb | rfl
          · exact h x hxdb
          · exact views_within_limit_soft_delete w now (h w hw)
        · rw [Bool.not_eq_true] at he
          rw [view_wish_live_db db slug now w hf hd he]
          intro x hx
          rcases mem_updateWish db slug _ x hx with hxdb | rfl
          · exact h x hxdb
          · intro m hm
            rw [next_row_max_views] at hm
            rw [next_row_current_views]
            have hev : w.is_expired_by_views = false :=
              (Bool.or_eq_false_iff.mp he).2
            simp [Wish.is_expired_by_views, hm] at hev
            omega
  | del slug now =>
    show db_views_ok (delete_wish db slug now).2
    cases hf : db.find? (fun x => x.slug == slug) with
    | none =>
      have hdb : (delete_wish db slug now).2 = db := by simp [delete_wish, hf]
      rw [hdb]
      exact h
    | some w =>
      have hw : w ∈ db := List.mem_of_find?_eq_some hf
      by_cases hd : w.is_deleted = true
      · have hdb : (delete_wish db slug now).2 = db := by
          simp [delete_wish, hf, hd]
        rw [hdb]
        exact h
      · have hdb : (delete_wish db slug now).2 =
            updateWish db slug (w.soft_delete now) := by
          simp [delete_wish, hf, hd]
        rw [hdb]
        intro x hx
        rcases mem_updateWish db slug _ x hx with hxdb | rfl
        · exact h x hxdb
        · exact views_within_limit_soft_delete w now (h w hw)
  | status slug now =>
    show db_views_ok (get_wish_status db slug now).2
    rw [get_wish_status_db]
    exact h
  | sweep env now grace =>
    show db_views_ok (cleanup_expired_wishes env db now grace).2
    intro x hx
    have h2 : (cleanup_expired_wishes env db now grace).2 =
        db.filter (fun y =>
          !(is_purge_candidate y (now - grace) && !env.row_delete_fails y.id)) :=
      rfl
    rw [h2, List.mem_filter] at hx
    exact h x hx.1

/-- C4: once `max_views` is set, `current_views` never exceeds it across
any sequence of core operations — a view that would push the counter past
the limit is rejected by the pre-increment expiry check, so the table-wide
bound established at creation (counters start at 0) is preserved by
`view`, `delete`, `status` and the sweep alike. -/
theorem C4_views_never_exceed_limit (db : Db) (ops : List Op)
    (h : db_views_ok db) : db_views_ok (apply_ops db ops) := by
  induction ops generalizing db with
  | nil => exact h
  | cons op rest ih => exact ih (apply_op db op) (apply_op_views_ok db op h)

/-- Freshly created wish for the C4 witness. -/
def freshWish : Wish :=
  { id := 7, slug := "fresh001", title := none, message := "m",
    theme := "default", expires_at := none, max_views := some 1,
    current_views := 0, is_deleted := false, deleted_at := none,
    images := [] }

theorem C4_views_never_exceed_limit_witness :
    db_views_ok (apply_ops [freshWish]
      [Op.view "fresh001" 0, Op.view "fresh001" 1, Op.del "fresh001" 2]) :=
  C4_views_never_exceed_limit [freshWish]
    [Op.view "fresh001" 0, Op.view "fresh001" 1, Op.del "fresh001" 2]
    (by
      intro w hw
      rw [List.mem_singleton] at hw
      subst hw
      intro m hm
      have : m = 1 := by
        have h1 : freshWish.max_views = some 1 := rfl
        rw [h1] at hm
        injection hm with e
        exact e.symm
      rw [this]
      decide)

/-! ### View-sequence lemmas -/

theorem is_expired_by_time_congr (w w' : Wish)
    (h : w'.expires_at = w.expires_at) (t : Int) :
    w'.is_expired_by_time t = w.is_expired_by_time t := by
  unfold Wish.is_expired_by_time
  rw [h]

theorem view_wish_live_isOk (db : Db) (slug : String) (now : Int) (w : Wish)
    (hf : db.find? (fun x => x.slug == slug) = some w)
    (hd : w.is_deleted = false) (he : w.is_expired now = false) :
    (view_wish db slug now).1.isOk = true := by
  have he' : (check_expiry w now).is_expired = false := by
    rw [check_expiry_is_expired]
    exact he
  simp [view_wish, hf, hd, he', Except.isOk, Except.toBool]

theorem getD_map_const (rest : List Int) (j : Nat) (hj : j < rest.length)
    (e d : Except ViewError WishViewResponse) :
    (rest.map (fun _ => e)).getD j d = e := by
  rw [List.getD_eq_getElem?_getD, List.getElem?_map, List.getElem?_eq_getElem hj]
  rfl

theorem run_views_deleted (slug : String) (times : List Int) :
    ∀ (db : Db) (w : Wish),
      db.find? (fun x => x.slug == slug) = some w →
      w.is_deleted = true →
      (run_views db slug times).1 =
        times.map (fun _ => Except.error (ViewError.gone none)) ∧
      (run_views db slug times).2 = db := by
  induction times with
  | nil =>
    intro db w hf hd
    exact ⟨rfl, rfl⟩
  | cons now rest ih =>
    intro db w hf hd
    have hv : view_wish db slug now =
        (Except.error (ViewError.gone none), db) := by
      simp [view_wish, hf, hd]
    have ih' := ih db w hf hd
    constructor
    · simp [run_views, hv, ih'.1]
    · simp [run_views, hv, ih'.2]

theorem run_views_limit (slug : String) (N : Int) (times : List Int) :
    ∀ (db : Db) (w : Wish),
      db.find? (fun x => x.slug == slug) = some w →
      w.max_views = some N →
      w.is_deleted = false →
      (∀ t ∈ times, w.is_expired_by_time t = false) →
      ∀ i : Nat, i < times.length →
        ((w.current_views + i < N →
          ((run_views db slug times).1.getD i
            (Except.error ViewError.notFound)).isOk = true) ∧
         (N ≤ w.current_views + i →
          ∃ r, (run_views db slug times).1.getD i
            (Except.error ViewError.notFound) =
              Except.error (ViewError.gone r))) := by
  induction times with
  | nil =>
    intro db w hf hN hd htime i hi
    simp at hi
  | cons now rest ih =>
    intro db w hf hN hd htime i hi
    have hslug : (w.slug == slug) = true := by
      have h0 := List.find?_some hf
      simpa using h0
    have htnow : w.is_expired_by_time now = false :=
      htime now (List.mem_cons_self now rest)
    have htrest : ∀ t ∈ rest, w.is_expired_by_time t = false :=
      fun t ht => htime t (List.mem_cons_of_mem now ht)
    have hcons1 : (run_views db slug (now :: rest)).1 =
        (view_wish db slug now).1 ::
          (run_views (view_wish db slug now).2 slug rest).1 := rfl
    by_cases hge : N ≤ w.current_views
    · have hev : w.is_expired_by_views = true := by
        simp [Wish.is_expired_by_views, hN]
        omega
      have hfst : (view_wish db slug now).1 =
          Except.error (ViewError.gone (some ExpiryType.views)) := by
        simp [view_wish, check_expiry, hf, hd, htnow, hev]
      have hsnd : (view_wish db slug now).2 =
          updateWish db slug (w.soft_delete now) :=
        view_wish_expired_db db slug now w hf hd
          (by simp [Wish.is_expired, hev])
      have hf' : (updateWish db slug (w.soft_delete now)).find?
          (fun x => x.slug == slug) = some (w.soft_delete now) :=
        find_updateWish db slug w (w.soft_delete now) hf hslug
      have hrest := run_views_deleted slug rest
        (updateWish db slug (w.soft_delete now)) (w.soft_delete now) hf' rfl
      cases i with
      | zero =>
        constructor
        · intro hlt
          exfalso
          push_cast at hlt
          omega
        · intro _
          refine ⟨some ExpiryType.views, ?_⟩
          rw [hcons1, List.getD_cons_zero, hfst]
      | succ j =>
        have hj : j < rest.length := by
          simp [List.length_cons] at hi
          omega
        constructor
        · intro hlt
          exfalso
          push_cast at hlt
          omega
        · intro _
          refine ⟨none, ?_⟩
          rw [hcons1, List.getD_cons_succ, hsnd, hrest.1]
          exact getD_map_const rest j hj _ _
    · push_neg at hge
      have hev : w.is_expired_by_views = false := by
        simp [Wish.is_expired_by_views, hN]
        omega
      have hexp : w.is_expired now = false := by
        simp [Wish.is_expired, htnow, hev]
      have hfst : (view_wish db slug now).1.isOk = true :=
        view_wish_live_isOk db slug now w hf hd hexp
      have hsnd : (view_wish db slug now).2 =
          updateWish db slug (next_row w now) :=
        view_wish_live_db db slug now w hf hd hexp
      have hslug' : ((next_row w now).slug == slug) = true := by
        rw [next_row_slug]
        exact hslug
      have hf' : (updateWish db slug (next_row w now)).find?
          (fun x => x.slug == slug) = some (next_row w now) :=
        find_updateWish db slug w (next_row w now) hf hslug'
      cases i with
      | zero =>
        constructor
        · intro _
          rw [hcons1, List.getD_cons_zero]
          exact hfst
        · intro hle
          exfalso
          push_cast at hle
          omega
      | succ j =>
        have hj : j < rest.length := by
          simp [List.length_cons] at hi
          omega
        by_cases hreach : N ≤ w.current_views + 1
        · have hdel' : (next_row w now).is_deleted = true := by
            rw [next_row_is_deleted, hd]
            simp [should_soft_delete, hN]
            omega
          have hrest := run_views_deleted slug rest
            (updateWish db slug (next_row w now)) (next_row w now) hf' hdel'
          constructor
          · intro hlt
            exfalso
            push_cast at hlt
            omega
          · intro _
            refine ⟨none, ?_⟩
            rw [hcons1, List.getD_cons_succ, hsnd, hrest.1]
            exact getD_map_const rest j hj _ _
        · push_neg at hreach
          have hd' : (next_row w now).is_deleted = false := by
            rw [next_row_is_deleted, hd]
            simp [should_soft_delete, hN]
            omega
          have hN' : (next_row w now).max_views = some N := by
            rw [next_row_max_views]
            exact hN
          have htrest' : ∀ t ∈ rest,
              (next_row w now).is_expired_by_time t = false := fun t ht =>
            (is_expired_by_time_congr w (next_row w now)
              (next_row_expires_at w now) t).trans (htrest t ht)
          have hrec := ih (updateWish db slug (next_row w now)) (next_row w now)
            hf' hN' hd' htrest' j hj
          rw [next_row_current_views] at hrec
          constructor
          · intro hlt
            rw [hcons1, List.getD_cons_succ, hsnd]
            apply hrec.1
            push_cast at hlt ⊢
            omega
          · intro hle
            rw [hcons1, List.getD_cons_succ, hsnd]
            apply hrec.2
            push_cast at hle ⊢
            omega

/-- C1: for a wish created with `max_views = N` whose time limit never
fires during the calls, a sequence of `view` calls yields exactly N
successes — every call with index below N succeeds, every call with index
at N or beyond fails with Gone.  For N = 1 in particular, the single
successful read returns `remaining_views = 0` and the very same call
commits the tombstoned (incremented, `is_deleted = true`) row. -/
theorem C1_view_limit_sequence (db : Db) (slug : String) (times : List Int)
    (N : Int) (w : Wish)
    (hfind : db.find? (fun x => x.slug == slug) = some w)
    (hN : w.max_views = some N) (h0 : w.current_views = 0)
    (hdel : w.is_deleted = false)
    (htime : ∀ t ∈ times, w.is_expired_by_time t = false) :
    (∀ i : Nat, i < times.length → (i : Int) < N →
      ((run_views db slug times).1.getD i
        (Except.error ViewError.notFound)).isOk = true) ∧
    (∀ i : Nat, i < times.length → N ≤ (i : Int) →
      ∃ r, (run_views db slug times).1.getD i
        (Except.error ViewError.notFound) = Except.error (ViewError.gone r)) ∧
    (∀ t, w.is_expired_by_time t = false → N = 1 →
      (view_wish db slug t).1 = Except.ok
        { title := w.title, message := w.message, theme := w.theme,
          images := w.images, remaining_views := some 0 } ∧
      (view_wish db slug t).2 = updateWish db slug
        (({ w with current_views := 1 } : Wish).soft_delete t)) := by
  refine ⟨?_, ?_, ?_⟩
  · intro i hi hlt
    have := (run_views_limit slug N times db w hfind hN hdel htime i hi).1
    rw [h0] at this
    apply this
    omega
  · intro i hi hle
    have := (run_views_limit slug N times db w hfind hN hdel htime i hi).2
    rw [h0] at this
    apply this
    omega
  · intro t htf hN1
    subst hN1
    have hexp : w.is_expired t = false := by
      simp [Wish.is_expired, Wish.is_expired_by_views, htf, hN, h0]
    have he' : (check_expiry w t).is_expired = false := by
      rw [check_expiry_is_expired]
      exact hexp
    constructor
    · simp [view_wish, hfind, hdel, he', should_soft_delete, hN, h0,
        Wish.soft_delete]
    · simp [view_wish, hfind, hdel, he', should_soft_delete, hN, h0,
        Wish.soft_delete]

/-- Wish with a view budget of 2 and its call sequence, for the C1
witness. -/
def limitWish : Wish :=
  { id := 8, slug := "limit001", title := none, message := "m",
    theme := "default", expires_at := none, max_views := some 2,
    current_views := 0, is_deleted := false, deleted_at := none,
    images := [] }

theorem C1_view_limit_sequence_witness :
    ((run_views [limitWish] "limit001" [0, 1, 2]).1.getD 2
      (Except.error ViewError.notFound)).isOk = true ∨
    (∃ r, (run_views [limitWish] "limit001" [0, 1, 2]).1.getD 2
      (Except.error ViewError.notFound) = Except.error (ViewError.gone r)) :=
  Or.inr
    ((C1_view_limit_sequence [limitWish] "limit001" [0, 1, 2] 2 limitWish
      (by decide) rfl rfl rfl (by decide)).2.1 2 (by decide) (by decide))

end Wishaday
